import Mathlib

/-!
# DEV-MEMORY-MCP: verification of the retrieval and usage-accounting core

A shallow embedding, in Lean 4, of the core logic of the DevMemory MCP
server (Go + PostgreSQL/pgvector):

* the data model (`internal/store/store.go`): projects, memories, sessions,
  indexed files, usage stats;
* the per-kind search executors and their strategy dispatch
  (`SearchMemories` / `SearchSessions` / `SearchFiles`);
* the cross-project aggregator `SearchAll` with its exchange sort and cap;
* the upsert writers (`SetMemory`, `CreateSession`, `IndexFile`) with the
  `COALESCE` vector-preservation semantics;
* the exact-key readers (`GetMemory`, `GetSession`, `GetProject`) with the
  `pgx.ErrNoRows ↦ (nil, nil)` convention;
* the MCP tool handlers relevant to usage accounting (`recordUsage`,
  `tokenEstimate`, `handleMemoryGet`, `handleMemorySearch`,
  `handleMemoryDelete`, `handleSessionGet`);
* the embedding gateway `Embed` (`internal/embedding/service.go`);
* the SSE event bus (`EventBus.Subscribe` / `Publish`) with its bounded
  non-blocking channels.

Postgres-side primitives that the core only consumes (cosine distance,
`websearch_to_tsquery` matching, `ts_rank` scoring) are parameters of the
model, collected in `DBSem`; machine floating-point scores are modelled by
`ℚ`, which preserves every ordering property the core relies on.
-/

namespace DevMemory

/-! ## Data model (internal/store/store.go, migrations/001_initial_schema.sql) -/

/-- `Vector = []float32`: an embedding vector. Components modelled as `ℚ`. -/
abbrev Vec := List ℚ

/-- A row of the `projects` table. -/
structure Project where
  id : String
  name : String
  rootPath : String
  deriving Repr, DecidableEq

/-- A row of the `memories` table; natural key `(project_id, topic, key)`. -/
structure MemoryRow where
  projectID : String
  topic : String
  key : String
  value : String
  embedding : Option Vec
  deriving Repr, DecidableEq

/-- A row of the `sessions` table; natural key `(project_id, session_num)`. -/
structure SessionRow where
  projectID : String
  sessionNum : Int
  title : String
  summary : String
  content : String
  embedding : Option Vec
  deriving Repr, DecidableEq

/-- A row of the `file_index` table; natural key `(project_id, file_path)`. -/
structure FileRow where
  projectID : String
  filePath : String
  fileType : String
  symbols : String
  summary : String
  embedding : Option Vec
  deriving Repr, DecidableEq

/-- A row of the `usage_stats` table (`store.UsageStat`). -/
structure UsageStat where
  projectID : String
  toolName : String
  queryText : String
  resultsCount : Int
  tokensEstimated : Int
  deriving Repr, DecidableEq

/-- The database state visible to the store layer. -/
structure StoreState where
  projects : List Project
  memories : List MemoryRow
  sessions : List SessionRow
  files : List FileRow
  usage : List UsageStat
  deriving Repr, DecidableEq

/-- A search hit: a row together with the `score` column computed by the
query (`Memory.Score` / `Session.Score` / `FileEntry.Score` in Go). -/
structure Scored (α : Type) where
  item : α
  score : ℚ
  deriving Repr, DecidableEq

/-- The Postgres-side query primitives the store consumes, §6 of the spec:
`dist` is the pgvector cosine distance `<=>`, `tsMatch` is
`to_tsvector(doc) @@ websearch_to_tsquery(query)`, and `rank` is
`ts_rank(to_tsvector(doc), websearch_to_tsquery(query))`. -/
structure DBSem where
  dist : Vec → Vec → ℚ
  tsMatch : String → String → Bool
  rank : String → String → ℚ

/-! ## Entity search executors (internal/store/postgres.go)

Each Go search function builds exactly one SQL query: the similarity query
when `embedding != nil`, the full-text query otherwise.  The two queries are
modelled by `runSimQuery` and `runFtsQuery`; the `ORDER BY` is rendered by
`List.mergeSort` and `LIMIT` by `List.take`. -/

/-- `SELECT …, 1 - (embedding <=> $2) AS score FROM t
     WHERE project_id=$1 AND embedding IS NOT NULL
     ORDER BY embedding <=> $2 LIMIT $3`. -/
def runSimQuery {α : Type} (dist : Vec → Vec → ℚ) (pid : α → String)
    (emb : α → Option Vec) (rows : List α) (projectID : String) (qv : Vec)
    (limit : Nat) : List (Scored α) :=
  (((rows.filter (fun r => pid r == projectID && (emb r).isSome)).mergeSort
      (fun a b => decide (dist qv ((emb a).getD []) ≤ dist qv ((emb b).getD [])))).map
    (fun r => ⟨r, 1 - dist qv ((emb r).getD [])⟩)).take limit

/-- `SELECT …, ts_rank(to_tsvector(doc), websearch_to_tsquery($2)) AS score
     FROM t WHERE project_id=$1 AND to_tsvector(doc) @@ websearch_to_tsquery($2)
     ORDER BY score DESC LIMIT $3`. -/
def runFtsQuery {α : Type} (tsMatch : String → String → Bool)
    (rank : String → String → ℚ) (pid : α → String) (doc : α → String)
    (rows : List α) (projectID query : String) (limit : Nat) : List (Scored α) :=
  (((rows.filter (fun r => pid r == projectID && tsMatch (doc r) query)).mergeSort
      (fun a b => decide (rank (doc b) query ≤ rank (doc a) query))).map
    (fun r => ⟨r, rank (doc r) query⟩)).take limit

/-- The text column searched by the sessions full-text query:
`coalesce(title,'') || ' ' || coalesce(summary,'') || ' ' || coalesce(content,'')`. -/
def sessionDoc (r : SessionRow) : String :=
  r.title ++ " " ++ r.summary ++ " " ++ r.content

/-- `if limit <= 0 { limit = 10 }`, the default applied at the top of each
search function, followed by the (always non-negative) `LIMIT` argument. -/
def effLimit (limit0 : Int) : Nat :=
  (if limit0 ≤ 0 then (10 : Int) else limit0).toNat

/-- `PostgresStore.SearchMemories`: semantic search if an embedding is
provided, otherwise full-text search; `limit <= 0` defaults to 10. -/
def SearchMemories (sem : DBSem) (rows : List MemoryRow)
    (projectID query : String) (embedding : Option Vec) (limit0 : Int) :
    List (Scored MemoryRow) :=
  match embedding with
  | some qv =>
      runSimQuery sem.dist MemoryRow.projectID MemoryRow.embedding rows
        projectID qv (effLimit limit0)
  | none =>
      runFtsQuery sem.tsMatch sem.rank MemoryRow.projectID MemoryRow.value rows
        projectID query (effLimit limit0)

/-- `PostgresStore.SearchSessions`: same dispatch as `SearchMemories`,
full-text over title+summary+content. -/
def SearchSessions (sem : DBSem) (rows : List SessionRow)
    (projectID query : String) (embedding : Option Vec) (limit0 : Int) :
    List (Scored SessionRow) :=
  match embedding with
  | some qv =>
      runSimQuery sem.dist SessionRow.projectID SessionRow.embedding rows
        projectID qv (effLimit limit0)
  | none =>
      runFtsQuery sem.tsMatch sem.rank SessionRow.projectID sessionDoc rows
        projectID query (effLimit limit0)

/-- `PostgresStore.SearchFiles`: same dispatch, full-text over `summary`. -/
def SearchFiles (sem : DBSem) (rows : List FileRow)
    (projectID query : String) (embedding : Option Vec) (limit0 : Int) :
    List (Scored FileRow) :=
  match embedding with
  | some qv =>
      runSimQuery sem.dist FileRow.projectID FileRow.embedding rows
        projectID qv (effLimit limit0)
  | none =>
      runFtsQuery sem.tsMatch sem.rank FileRow.projectID FileRow.summary rows
        projectID query (effLimit limit0)

/-! ## Cross-entity aggregation (`PostgresStore.SearchAll`)

`SearchAll` enumerates all projects, invokes the three per-kind searches for
each, appends the per-kind results of every project whose search returned
`err == nil`, then sorts each accumulated slice by score descending with a
double-loop exchange sort and slices it to `limit`.

The double loop
```
for i := range xs { for j := i+1; j < len(xs); j++ {
    if xs[j].Score > xs[i].Score { xs[i], xs[j] = xs[j], xs[i] } } }
```
is embedded as `selectMax` (one pass of the inner loop, tracking the value
currently sitting in slot `i`) iterated by `sortScoreDesc` (the outer loop).
The per-project, per-kind store calls can fail independently (a database
error); they enter the model as `Except`-valued functions so that the
skip-on-error control flow is represented faithfully. -/

/-- One pass of the inner exchange loop: `cur` is the value in slot `i`;
whenever a later element scores strictly higher it is swapped into slot `i`
(the previous occupant dropping into the later slot) and the scan goes on.
Returns the final occupant of slot `i` and the final contents of the later
slots, in order. -/
def selectMax {α : Type} (score : α → ℚ) : α → List α → α × List α
  | cur, [] => (cur, [])
  | cur, y :: ys =>
    if score cur < score y then
      let p := selectMax score y ys
      (p.1, cur :: p.2)
    else
      let p := selectMax score cur ys
      (p.1, y :: p.2)

theorem selectMax_snd_length {α : Type} (score : α → ℚ) (cur : α)
    (xs : List α) : (selectMax score cur xs).2.length = xs.length := by
  induction xs generalizing cur with
  | nil => rfl
  | cons y ys ih =>
    by_cases h : score cur < score y <;>
      simp [selectMax, h, ih]

/-- The outer loop of the exchange sort: after the inner pass, slot `i`
holds the maximum of positions `i..`, and the loop proceeds with `i+1`. -/
def sortScoreDesc {α : Type} (score : α → ℚ) : List α → List α
  | [] => []
  | x :: xs =>
    let p := selectMax score x xs
    p.1 :: sortScoreDesc score p.2
termination_by l => l.length
decreasing_by
  simp only [List.length_cons, selectMax_snd_length]
  omega

/-- The accumulation loop of `SearchAll` for one entity kind:
`for _, p := range projects { xs, err := f(p.ID); if err == nil { out = append(out, xs...) } }`. -/
def collectKind {α : Type} (ps : List Project)
    (f : String → Except String (List α)) : List α :=
  match ps with
  | [] => []
  | p :: rest =>
    (match f p.id with
     | .ok xs => xs
     | .error _ => []) ++ collectKind rest f

/-- `store.SearchAllResult`. -/
structure SearchAllResult where
  memories : List (Scored MemoryRow)
  sessions : List (Scored SessionRow)
  files : List (Scored FileRow)
  deriving Repr, DecidableEq

/-- The control flow of `PostgresStore.SearchAll`, with the outcome of
`ListProjects` and of each per-project, per-kind search supplied as inputs
(they are database calls).  Returns the result value together with the
`error` return (`some e` exactly when `ListProjects` failed, in which case
the empty result is returned alongside it, as in the source). -/
def SearchAllImpl (projectsRes : Except String (List Project))
    (fm : String → Except String (List (Scored MemoryRow)))
    (fs : String → Except String (List (Scored SessionRow)))
    (ff : String → Except String (List (Scored FileRow)))
    (limit0 : Int) : SearchAllResult × Option String :=
  match projectsRes with
  | .error e => (⟨[], [], []⟩, some e)
  | .ok ps =>
    (⟨(sortScoreDesc Scored.score (collectKind ps fm)).take (effLimit limit0),
      (sortScoreDesc Scored.score (collectKind ps fs)).take (effLimit limit0),
      (sortScoreDesc Scored.score (collectKind ps ff)).take (effLimit limit0)⟩,
     none)

/-- `ListProjects`: `SELECT … FROM projects ORDER BY name`. -/
def ListProjects (st : StoreState) : List Project :=
  st.projects.mergeSort (fun a b => decide (a.name ≤ b.name))

/-- `PostgresStore.SearchAll` against a store state in which every database
call succeeds: the instance of `SearchAllImpl` where `ListProjects` and the
three per-kind searches return their computed results. -/
def SearchAll (sem : DBSem) (st : StoreState) (query : String)
    (embedding : Option Vec) (limit : Int) : SearchAllResult × Option String :=
  SearchAllImpl (.ok (ListProjects st))
    (fun pid => .ok (SearchMemories sem st.memories pid query embedding limit))
    (fun pid => .ok (SearchSessions sem st.sessions pid query embedding limit))
    (fun pid => .ok (SearchFiles sem st.files pid query embedding limit))
    limit

/-! ## Exact-key readers (`GetMemory`, `GetSession`, `GetProject`)

Each Go getter runs `QueryRow(...).Scan(...)`; a query matching no row
yields `pgx.ErrNoRows`, which the getter converts to `(nil, nil)`.  The
row lookup is modelled by `find?` over the table (the natural keys are
unique by schema constraint), the `ErrNoRows` step by `queryRow*`, and
the getters thread the store state through unchanged so that freedom from
side effects is part of the statement. -/

/-- Database-call errors as seen by the store layer. -/
inductive DBError
  | noRows
  | failure (msg : String)
  deriving Repr, DecidableEq

/-- The row selected by `WHERE project_id=$1 AND topic=$2 AND key=$3`. -/
def findMemoryRow (rows : List MemoryRow) (pid topic key : String) :
    Option MemoryRow :=
  rows.find? (fun r => r.projectID == pid && r.topic == topic && r.key == key)

/-- The row selected by `WHERE project_id=$1 AND session_num=$2`. -/
def findSessionRow (rows : List SessionRow) (pid : String) (num : Int) :
    Option SessionRow :=
  rows.find? (fun r => r.projectID == pid && r.sessionNum == num)

/-- The row selected by `WHERE id=$1` on `projects`. -/
def findProjectRow (rows : List Project) (id : String) : Option Project :=
  rows.find? (fun r => r.id == id)

/-- `QueryRow(...).Scan(...)` on `memories`: `ErrNoRows` when nothing matches. -/
def queryRowMemory (st : StoreState) (pid topic key : String) :
    Except DBError MemoryRow :=
  match findMemoryRow st.memories pid topic key with
  | some r => .ok r
  | none => .error .noRows

/-- `QueryRow(...).Scan(...)` on `sessions`. -/
def queryRowSession (st : StoreState) (pid : String) (num : Int) :
    Except DBError SessionRow :=
  match findSessionRow st.sessions pid num with
  | some r => .ok r
  | none => .error .noRows

/-- `QueryRow(...).Scan(...)` on `projects`. -/
def queryRowProject (st : StoreState) (id : String) :
    Except DBError Project :=
  match findProjectRow st.projects id with
  | some r => .ok r
  | none => .error .noRows

/-- `PostgresStore.GetMemory`: `if err == pgx.ErrNoRows { return nil, nil }`. -/
def GetMemory (st : StoreState) (pid topic key : String) :
    (Except DBError (Option MemoryRow)) × StoreState :=
  (match queryRowMemory st pid topic key with
   | .error .noRows => .ok none
   | .error e => .error e
   | .ok r => .ok (some r), st)

/-- `PostgresStore.GetSession`: same `ErrNoRows ↦ (nil, nil)` convention. -/
def GetSession (st : StoreState) (pid : String) (num : Int) :
    (Except DBError (Option SessionRow)) × StoreState :=
  (match queryRowSession st pid num with
   | .error .noRows => .ok none
   | .error e => .error e
   | .ok r => .ok (some r), st)

/-- `PostgresStore.GetProject`: same `ErrNoRows ↦ (nil, nil)` convention. -/
def GetProject (st : StoreState) (id : String) :
    (Except DBError (Option Project)) × StoreState :=
  (match queryRowProject st id with
   | .error .noRows => .ok none
   | .error e => .error e
   | .ok r => .ok (some r), st)

/-! ## Upsert writers (`SetMemory`, `CreateSession`, `IndexFile`)

Each runs `INSERT … ON CONFLICT (natural key) DO UPDATE SET …,
embedding=COALESCE($n::vector, t.embedding)`: when the key exists the
payload columns are overwritten and the stored vector is replaced only if
the new one is non-NULL; otherwise a fresh row is inserted with the given
(possibly NULL) vector. -/

/-- `COALESCE($new::vector, t.embedding)`. -/
def coalesceVec (newEmb old : Option Vec) : Option Vec :=
  match newEmb with
  | some v => some v
  | none => old

/-- `PostgresStore.SetMemory`. -/
def SetMemory (st : StoreState) (pid topic key value : String)
    (embedding : Option Vec) : StoreState :=
  if st.memories.any
      (fun r => r.projectID == pid && r.topic == topic && r.key == key) then
    { st with memories := st.memories.map (fun r =>
        if r.projectID == pid && r.topic == topic && r.key == key then
          { r with value := value,
                   embedding := coalesceVec embedding r.embedding }
        else r) }
  else
    { st with memories := st.memories ++ [⟨pid, topic, key, value, embedding⟩] }

/-- `PostgresStore.CreateSession` (an upsert on `(project_id, session_num)`). -/
def CreateSession (st : StoreState) (pid : String) (num : Int)
    (title summary content : String) (embedding : Option Vec) : StoreState :=
  if st.sessions.any (fun r => r.projectID == pid && r.sessionNum == num) then
    { st with sessions := st.sessions.map (fun r =>
        if r.projectID == pid && r.sessionNum == num then
          { r with title := title, summary := summary, content := content,
                   embedding := coalesceVec embedding r.embedding }
        else r) }
  else
    { st with sessions :=
        st.sessions ++ [⟨pid, num, title, summary, content, embedding⟩] }

/-- `PostgresStore.IndexFile` (an upsert on `(project_id, file_path)`). -/
def IndexFile (st : StoreState) (pid path fileType symbols summary : String)
    (embedding : Option Vec) : StoreState :=
  if st.files.any (fun r => r.projectID == pid && r.filePath == path) then
    { st with files := st.files.map (fun r =>
        if r.projectID == pid && r.filePath == path then
          { r with fileType := fileType, symbols := symbols,
                   summary := summary,
                   embedding := coalesceVec embedding r.embedding }
        else r) }
  else
    { st with files :=
        st.files ++ [⟨pid, path, fileType, symbols, summary, embedding⟩] }

/-- `PostgresStore.DeleteMemory`:
`DELETE FROM memories WHERE project_id=$1 AND topic=$2 AND key=$3`. -/
def DeleteMemory (st : StoreState) (pid topic key : String) : StoreState :=
  { st with memories :=
      (st.memories.filter
        (fun r => !(r.projectID == pid && r.topic == topic && r.key == key))) }

/-! ## MCP tool layer (internal/mcp)

The handlers below are the ones usage accounting depends on.  A handler
returns either a text result or an error result (`mcp.NewToolResultText` /
`mcp.NewToolResultError`; both are returned with a `nil` Go error), and it
threads the store state, whose `usage` table grows by at most one row per
call via `recordUsage`.  The embedding gateway call inside a handler enters
the model as a function `embed : String → Option Vec` (its outcome depends
on the external service). -/

/-- The value a tool handler hands back to the MCP transport. -/
inductive ToolResult
  | text (s : String)
  | error (s : String)
  deriving Repr, DecidableEq

/-- `mcp.tokenEstimate`: the heuristic token count for a tool call. -/
def tokenEstimate (toolName : String) (resultsCount : Int) : Int :=
  match toolName with
  | "memory_search" => resultsCount * 500
  | "session_search" => resultsCount * 2000
  | "file_search" => resultsCount * 800
  | _ => 100

/-- `Server.recordUsage`: inserts one `usage_stats` row (persistence failure
is only logged, so the success path is modelled) and then publishes a
dashboard event, which does not touch the store. -/
def recordUsage (st : StoreState) (toolName projectID query : String)
    (resultsCount : Int) : StoreState :=
  { st with usage := st.usage ++
      [⟨projectID, toolName, query, resultsCount,
        tokenEstimate toolName resultsCount⟩] }

/-- `json.MarshalIndent` of a row, as far as the model needs it. -/
def renderMemory (m : MemoryRow) : String := toString (repr m)

/-- `json.MarshalIndent` of a session row. -/
def renderSession (s : SessionRow) : String := toString (repr s)

/-- `Server.handleMemoryGet`: note that the `m == nil` branch answers
`"not found"` and returns before `recordUsage` runs. -/
def handleMemoryGet (st : StoreState) (projectID topic key : String) :
    ToolResult × StoreState :=
  match (GetMemory st projectID topic key).1 with
  | .error _ => (.error "get memory failed", st)
  | .ok none => (.text "not found", st)
  | .ok (some m) =>
      (.text (renderMemory m),
       recordUsage st "memory_get" projectID (topic ++ "/" ++ key) 1)

/-- `Server.handleSessionGet`: same shape as `handleMemoryGet`. -/
def handleSessionGet (st : StoreState) (projectID : String) (num : Int) :
    ToolResult × StoreState :=
  match (GetSession st projectID num).1 with
  | .error _ => (.error "get session failed", st)
  | .ok none => (.text "not found", st)
  | .ok (some s) =>
      (.text (renderSession s),
       recordUsage st "session_get" projectID "" 1)

/-- `Server.handleMemorySearch`: argument validation, embed, search, then
`recordUsage` with the result count (also when it is zero). -/
def handleMemorySearch (sem : DBSem) (embed : String → Option Vec)
    (st : StoreState) (projectID query : String) (limit : Int) :
    ToolResult × StoreState :=
  if projectID == "" || query == "" then
    (.error "project_id and query are required", st)
  else
    let emb := embed query
    let results := SearchMemories sem st.memories projectID query emb limit
    (.text (toString results.length),
     recordUsage st "memory_search" projectID query results.length)

/-- `Server.handleMemoryDelete`: deletes (whether or not the key exists)
and records usage with `resultsCount = 0`. -/
def handleMemoryDelete (st : StoreState) (projectID topic key : String) :
    ToolResult × StoreState :=
  let st' := DeleteMemory st projectID topic key
  (.text ("Deleted: " ++ topic ++ "/" ++ key),
   recordUsage st' "memory_delete" projectID (topic ++ "/" ++ key) 0)

/-! ## Embedding gateway (internal/embedding/service.go)

`Service.Embed` returns `nil` ("absent") on every failure path and never a
Go error.  The outcome of the single HTTP exchange is an input of the
model: transport failure, a non-200 status, a body that fails to decode,
or a decoded vector (whose length is then checked against the configured
dimension). -/

/-- The decoded body of the embedding API response. -/
inductive EmbedBody
  | malformed
  | embedding (v : Vec)
  deriving Repr, DecidableEq

/-- The outcome of the HTTP exchange with the embedding service. -/
inductive HttpOutcome
  | failure
  | response (status : Nat) (body : EmbedBody)
  deriving Repr, DecidableEq

/-- `embedding.Service`: URL (empty = disabled) and configured dimension. -/
structure EmbedService where
  url : String
  dim : Nat
  deriving Repr, DecidableEq

/-- `Service.Enabled`. -/
def EmbedService.Enabled (s : EmbedService) : Bool := s.url != ""

/-- `Service.Embed`: the guard `!s.Enabled() || text == ""` returns before
any request is built; every later failure path degrades to `none`. -/
def Embed (s : EmbedService) (text : String) (out : HttpOutcome) :
    Option Vec :=
  if !s.Enabled || text == "" then none
  else
    match out with
    | .failure => none
    | .response status body =>
      if status != 200 then none
      else
        match body with
        | .malformed => none
        | .embedding v => if v.length != s.dim then none else some v

/-! ## Event bus (internal/web, `EventBus` in the repository's web package)

Each subscriber owns a buffered channel of capacity 16.  `Publish` performs
a `select`-with-`default` send to every registered channel: it enqueues
when the buffer has room and otherwise leaves the channel untouched.  The
unsubscribe closure removes the channel from the registry and then runs
`for range ch {}`; that loop receives the pending messages and then blocks
on the open channel — nothing in the repository ever calls `close` on a
subscriber channel, and after removal no publisher can send to it. -/

/-- `make(chan string, 16)`: the subscriber inbox capacity. -/
def chanCap : Nat := 16

/-- The subscriber registry: one inbox (FIFO buffer) per subscriber. -/
structure EventBus where
  clients : List (List String)
  deriving Repr, DecidableEq

/-- `select { case ch <- event: default: }` on a buffered channel:
enqueue if the buffer has room, otherwise do nothing. -/
def trySend (inbox : List String) (event : String) : List String :=
  if inbox.length < chanCap then inbox ++ [event] else inbox

/-- `EventBus.Publish`: attempt a non-blocking send to every subscriber. -/
def Publish (eb : EventBus) (event : String) : EventBus :=
  { clients := eb.clients.map (fun inbox => trySend inbox event) }

/-- `EventBus.Subscribe` (registration half): a fresh empty inbox is added
and its index handed back. -/
def Subscribe (eb : EventBus) : EventBus × Nat :=
  ({ clients := eb.clients ++ [[]] }, eb.clients.length)

/-- Whether the `for range ch` loop of the unsubscribe closure ever exits.
`blocked` means the loop is parked on a receive from the open channel with
no remaining sender. -/
inductive DrainOutcome
  | returned
  | blocked
  deriving Repr, DecidableEq

/-- `for range ch {}`: receive the pending messages one by one; on an empty
buffer the loop exits if the channel has been closed and otherwise blocks
on the receive. -/
def drainLoop (pending : List String) (closed : Bool) : DrainOutcome :=
  match pending with
  | [] => if closed then .returned else .blocked
  | _ :: rest => drainLoop rest closed

/-- The unsubscribe closure returned by `Subscribe`: delete the channel
from the registry, then drain it.  The `false` records that no code path
in the repository closes a subscriber channel. -/
def unsubscribe (eb : EventBus) (i : Nat) : EventBus × DrainOutcome :=
  ({ clients := eb.clients.eraseIdx i },
   drainLoop (eb.clients.getD i []) false)

/-! ## Helper lemmas -/

theorem selectMax_cons_pos {α : Type} (score : α → ℚ) (cur y : α)
    (ys : List α) (h : score cur < score y) :
    selectMax score cur (y :: ys) =
      ((selectMax score y ys).1, cur :: (selectMax score y ys).2) := by
  simp [selectMax, h]

theorem selectMax_cons_neg {α : Type} (score : α → ℚ) (cur y : α)
    (ys : List α) (h : ¬ score cur < score y) :
    selectMax score cur (y :: ys) =
      ((selectMax score cur ys).1, y :: (selectMax score cur ys).2) := by
  simp [selectMax, h]

theorem selectMax_bounds {α : Type} (score : α → ℚ) (cur : α) (xs : List α) :
    score cur ≤ score (selectMax score cur xs).1 ∧
    ∀ a ∈ (selectMax score cur xs).2, score a ≤ score (selectMax score cur xs).1 := by
  induction xs generalizing cur with
  | nil => simp [selectMax]
  | cons y ys ih =>
    by_cases h : score cur < score y
    · rw [selectMax_cons_pos score cur y ys h]
      refine ⟨le_trans (le_of_lt h) (ih y).1, ?_⟩
      intro a ha
      rcases List.mem_cons.mp ha with h1 | h2
      · subst h1; exact le_trans (le_of_lt h) (ih y).1
      · exact (ih y).2 a h2
    · rw [selectMax_cons_neg score cur y ys h]
      refine ⟨(ih cur).1, ?_⟩
      intro a ha
      rcases List.mem_cons.mp ha with h1 | h2
      · subst h1; exact le_trans (le_of_not_lt h) (ih cur).1
      · exact (ih cur).2 a h2

theorem selectMax_perm {α : Type} (score : α → ℚ) (cur : α) (xs : List α) :
    List.Perm ((selectMax score cur xs).1 :: (selectMax score cur xs).2)
      (cur :: xs) := by
  induction xs generalizing cur with
  | nil => simp [selectMax]
  | cons y ys ih =>
    by_cases h : score cur < score y
    · rw [selectMax_cons_pos score cur y ys h]
      exact (List.Perm.swap _ _ _).trans ((ih y).cons cur)
    · rw [selectMax_cons_neg score cur y ys h]
      exact ((List.Perm.swap _ _ _).trans ((ih cur).cons y)).trans
        (List.Perm.swap _ _ _)

theorem sortScoreDesc_cons {α : Type} (score : α → ℚ) (x : α) (xs : List α) :
    sortScoreDesc score (x :: xs) =
      (selectMax score x xs).1 :: sortScoreDesc score (selectMax score x xs).2 := by
  rw [sortScoreDesc]

theorem sortScoreDesc_perm {α : Type} (score : α → ℚ) (l : List α) :
    List.Perm (sortScoreDesc score l) l := by
  induction l using sortScoreDesc.induct score with
  | case1 => simp [sortScoreDesc]
  | case2 x xs p ih =>
    rw [sortScoreDesc_cons]
    exact (ih.cons _).trans (selectMax_perm score x xs)

theorem sortScoreDesc_sorted {α : Type} (score : α → ℚ) (l : List α) :
    (sortScoreDesc score l).Pairwise (fun a b => score b ≤ score a) := by
  induction l using sortScoreDesc.induct score with
  | case1 => simp [sortScoreDesc]
  | case2 x xs p ih =>
    rw [sortScoreDesc_cons]
    refine List.Pairwise.cons ?_ ih
    intro b hb
    have hb' : b ∈ (selectMax score x xs).2 :=
      ((sortScoreDesc_perm score _).mem_iff).1 hb
    exact (selectMax_bounds score x xs).2 b hb'

theorem mem_runSimQuery_isSome {α : Type} (dist : Vec → Vec → ℚ)
    (pid : α → String) (emb : α → Option Vec) (rows : List α)
    (projectID : String) (qv : Vec) (limit : Nat) :
    ∀ x ∈ runSimQuery dist pid emb rows projectID qv limit,
      (emb x.item).isSome := by
  intro x hx
  unfold runSimQuery at hx
  have hx' := List.mem_of_mem_take hx
  obtain ⟨r, hr, rfl⟩ := List.mem_map.1 hx'
  rw [List.mem_mergeSort] at hr
  have hmem := List.mem_filter.1 hr
  have hcond := hmem.2
  simp only [Bool.and_eq_true] at hcond
  exact hcond.2

theorem drainLoop_open (pending : List String) :
    drainLoop pending false = DrainOutcome.blocked := by
  induction pending with
  | nil => rfl
  | cons m rest ih => simpa [drainLoop] using ih

theorem find?_map_update {α : Type} (p : α → Bool) (upd : α → α)
    (l : List α) (a : α) (hupd : p (upd a) = true) (h : l.find? p = some a) :
    (l.map (fun x => if p x then upd x else x)).find? p = some (upd a) := by
  induction l with
  | nil => simp at h
  | cons x xs ih =>
    by_cases hx : p x
    · rw [List.find?_cons_of_pos _ hx] at h
      injection h with h
      subst h
      simp only [List.map_cons, if_pos hx]
      exact List.find?_cons_of_pos _ hupd
    · rw [List.find?_cons_of_neg _ hx] at h
      simp only [List.map_cons, if_neg hx]
      rw [List.find?_cons_of_neg _ hx]
      exact ih h

theorem collectKind_error_elim {α : Type} (t : String) (e : String)
    (f : String → Except String (List α)) (hf : f t = .error e)
    (ps : List Project) :
    collectKind ps f =
      collectKind ps (fun pid => if pid = t then .ok [] else f pid) := by
  induction ps with
  | nil => rfl
  | cons q rest ih =>
    by_cases hq : q.id = t
    · simp only [collectKind, hq, hf, if_pos, ih]
    · simp only [collectKind, if_neg hq, ih]

/-! ## Claim theorems -/

/-- C1: for every single-kind, single-tenant search call (`SearchMemories`,
`SearchSessions`, `SearchFiles`) exactly one of the two query strategies
runs — with a query vector the call equals the similarity-ranked query
alone (all of whose results carry a non-absent stored vector); without one
it equals the keyword-ranked full-text query alone.  The two strategies are
never run together or merged within one call. -/
theorem search_strategy_selection (sem : DBSem) (mrows : List MemoryRow)
    (srows : List SessionRow) (frows : List FileRow) (pid query : String)
    (emb : Option Vec) (qv : Vec) (limit : Int) :
    (emb = some qv →
      (SearchMemories sem mrows pid query emb limit =
        runSimQuery sem.dist MemoryRow.projectID MemoryRow.embedding mrows
          pid qv (effLimit limit) ∧
      ∀ x ∈ SearchMemories sem mrows pid query emb limit,
        x.item.embedding.isSome) ∧
      (SearchSessions sem srows pid query emb limit =
        runSimQuery sem.dist SessionRow.projectID SessionRow.embedding srows
          pid qv (effLimit limit) ∧
      ∀ x ∈ SearchSessions sem srows pid query emb limit,
        x.item.embedding.isSome) ∧
      (SearchFiles sem frows pid query emb limit =
        runSimQuery sem.dist FileRow.projectID FileRow.embedding frows
          pid qv (effLimit limit) ∧
      ∀ x ∈ SearchFiles sem frows pid query emb limit,
        x.item.embedding.isSome)) ∧
    (emb = none →
      SearchMemories sem mrows pid query emb limit =
        runFtsQuery sem.tsMatch sem.rank MemoryRow.projectID MemoryRow.value
          mrows pid query (effLimit limit) ∧
      SearchSessions sem srows pid query emb limit =
        runFtsQuery sem.tsMatch sem.rank SessionRow.projectID sessionDoc
          srows pid query (effLimit limit) ∧
      SearchFiles sem frows pid query emb limit =
        runFtsQuery sem.tsMatch sem.rank FileRow.projectID FileRow.summary
          frows pid query (effLimit limit)) := by
  constructor
  · rintro rfl
    exact ⟨⟨rfl, mem_runSimQuery_isSome _ _ _ _ _ _ _⟩,
           ⟨rfl, mem_runSimQuery_isSome _ _ _ _ _ _ _⟩,
           ⟨rfl, mem_runSimQuery_isSome _ _ _ _ _ _ _⟩⟩
  · rintro rfl
    exact ⟨rfl, rfl, rfl⟩

/-- A database semantics instance used by the concrete witnesses. -/
def demoSem : DBSem :=
  ⟨fun _ _ => 0, fun _ _ => true, fun _ _ => 1⟩

/-- A memory row used by the concrete witnesses. -/
def demoMem : MemoryRow :=
  ⟨"t1", "arch", "db", "uses pgvector", some [1]⟩

/-- C1 witness: the dispatch evaluated at a one-row store, once with a
query vector and once without. -/
theorem search_strategy_selection_witness :
    (SearchMemories demoSem [demoMem] "t1" "auth" (some [1]) 5 =
      runSimQuery demoSem.dist MemoryRow.projectID MemoryRow.embedding
        [demoMem] "t1" [1] (effLimit 5) ∧
    ∀ x ∈ SearchMemories demoSem [demoMem] "t1" "auth" (some [1]) 5,
      x.item.embedding.isSome) ∧
    SearchMemories demoSem [demoMem] "t1" "auth" none 5 =
      runFtsQuery demoSem.tsMatch demoSem.rank MemoryRow.projectID
        MemoryRow.value [demoMem] "t1" "auth" (effLimit 5) :=
  ⟨((search_strategy_selection demoSem [demoMem] [] [] "t1" "auth"
      (some [1]) [1] 5).1 rfl).1,
   ((search_strategy_selection demoSem [demoMem] [] [] "t1" "auth"
      none [1] 5).2 rfl).1⟩

/-- C10: for every exact-key read (`GetMemory`, `GetSession`, `GetProject`),
when no row matches the given tenant and natural key the operation returns
absent together with no error, and the store state is unchanged. -/
theorem get_missing_absent_no_error (st : StoreState)
    (pid topic key id : String) (num : Int)
    (hm : findMemoryRow st.memories pid topic key = none)
    (hs : findSessionRow st.sessions pid num = none)
    (hp : findProjectRow st.projects id = none) :
    GetMemory st pid topic key = (.ok none, st) ∧
    GetSession st pid num = (.ok none, st) ∧
    GetProject st id = (.ok none, st) := by
  unfold GetMemory GetSession GetProject queryRowMemory queryRowSession
    queryRowProject
  rw [hm, hs, hp]
  exact ⟨rfl, rfl, rfl⟩

/-- C10 witness: the three getters evaluated on the empty store. -/
theorem get_missing_absent_no_error_witness :
    GetMemory ⟨[], [], [], [], []⟩ "t1" "arch" "db" =
      (.ok none, ⟨[], [], [], [], []⟩) ∧
    GetSession ⟨[], [], [], [], []⟩ "t1" 7 = (.ok none, ⟨[], [], [], [], []⟩) ∧
    GetProject ⟨[], [], [], [], []⟩ "t1" = (.ok none, ⟨[], [], [], [], []⟩) :=
  get_missing_absent_no_error ⟨[], [], [], [], []⟩ "t1" "arch" "db" "t1" 7
    rfl rfl rfl

/-- C2: for every `SearchAll` call with a positive limit, each of the three
per-kind result lists in the returned value is sorted non-increasing by
score and holds at most `limit` items, counted across all tenants
combined (whatever the outcome of the individual per-tenant searches). -/
theorem searchAll_sorted_and_capped
    (projectsRes : Except String (List Project))
    (fm : String → Except String (List (Scored MemoryRow)))
    (fs : String → Except String (List (Scored SessionRow)))
    (ff : String → Except String (List (Scored FileRow)))
    (limit : Int) (hpos : 0 < limit) :
    ((SearchAllImpl projectsRes fm fs ff limit).1).memories.Pairwise
        (fun a b => b.score ≤ a.score) ∧
    ((SearchAllImpl projectsRes fm fs ff limit).1).memories.length ≤
        limit.toNat ∧
    ((SearchAllImpl projectsRes fm fs ff limit).1).sessions.Pairwise
        (fun a b => b.score ≤ a.score) ∧
    ((SearchAllImpl projectsRes fm fs ff limit).1).sessions.length ≤
        limit.toNat ∧
    ((SearchAllImpl projectsRes fm fs ff limit).1).files.Pairwise
        (fun a b => b.score ≤ a.score) ∧
    ((SearchAllImpl projectsRes fm fs ff limit).1).files.length ≤
        limit.toNat := by
  have hl : effLimit limit = limit.toNat := by
    unfold effLimit
    rw [if_neg (not_le.mpr hpos)]
  cases projectsRes with
  | error e => simp [SearchAllImpl]
  | ok ps =>
    simp only [SearchAllImpl, hl]
    refine ⟨?_, ?_, ?_, ?_, ?_, ?_⟩ <;>
      first
        | exact List.Pairwise.sublist (List.take_sublist _ _)
            (sortScoreDesc_sorted _ _)
        | exact List.length_take_le _ _

/-- C2 witness: `SearchAll` on a two-project store with three keyword hits
per project and `limit = 2`. -/
theorem searchAll_sorted_and_capped_witness :
    ((SearchAllImpl (.ok [⟨"t1", "A", ""⟩, ⟨"t2", "B", ""⟩])
        (fun pid => .ok [⟨⟨pid, "a", "k1", "auth", none⟩, 3⟩,
                         ⟨⟨pid, "a", "k2", "auth", none⟩, 1⟩,
                         ⟨⟨pid, "a", "k3", "auth", none⟩, 2⟩])
        (fun _ => .ok []) (fun _ => .ok []) 2).1).memories.Pairwise
        (fun a b => b.score ≤ a.score) ∧
    ((SearchAllImpl (.ok [⟨"t1", "A", ""⟩, ⟨"t2", "B", ""⟩])
        (fun pid => .ok [⟨⟨pid, "a", "k1", "auth", none⟩, 3⟩,
                         ⟨⟨pid, "a", "k2", "auth", none⟩, 1⟩,
                         ⟨⟨pid, "a", "k3", "auth", none⟩, 2⟩])
        (fun _ => .ok []) (fun _ => .ok []) 2).1).memories.length ≤
        (2 : Int).toNat := by
  have h := searchAll_sorted_and_capped
    (.ok [⟨"t1", "A", ""⟩, ⟨"t2", "B", ""⟩])
    (fun pid => .ok [⟨⟨pid, "a", "k1", "auth", none⟩, 3⟩,
                     ⟨⟨pid, "a", "k2", "auth", none⟩, 1⟩,
                     ⟨⟨pid, "a", "k3", "auth", none⟩, 2⟩])
    (fun _ => .ok []) (fun _ => .ok []) 2 (by decide)
  exact ⟨h.1, h.2.1⟩

/-- C3: a failing per-tenant, per-kind search inside `SearchAll` does not
make the call fail, and its effect is exactly that of the failing tenant
contributing nothing to that kind: the other tenants' results, and the
failing tenant's other kinds, are untouched. -/
theorem searchAll_partial_failure (ps : List Project)
    (fm : String → Except String (List (Scored MemoryRow)))
    (fs : String → Except String (List (Scored SessionRow)))
    (ff : String → Except String (List (Scored FileRow)))
    (t : String) (limit : Int) :
    (SearchAllImpl (.ok ps) fm fs ff limit).2 = none ∧
    (∀ e, fm t = .error e →
      SearchAllImpl (.ok ps) fm fs ff limit =
        SearchAllImpl (.ok ps) (fun pid => if pid = t then .ok [] else fm pid)
          fs ff limit) ∧
    (∀ e, fs t = .error e →
      SearchAllImpl (.ok ps) fm fs ff limit =
        SearchAllImpl (.ok ps) fm (fun pid => if pid = t then .ok [] else fs pid)
          ff limit) ∧
    (∀ e, ff t = .error e →
      SearchAllImpl (.ok ps) fm fs ff limit =
        SearchAllImpl (.ok ps) fm fs
          (fun pid => if pid = t then .ok [] else ff pid) limit) := by
  refine ⟨rfl, ?_, ?_, ?_⟩ <;>
    intro e he <;>
    simp only [SearchAllImpl] <;>
    rw [collectKind_error_elim t e _ he]

/-- C3 witness: a two-project store where the first project's memory
search fails; the aggregate equals the one where that project's memory
contribution is empty, and no error is returned. -/
theorem searchAll_partial_failure_witness :
    (SearchAllImpl (.ok [⟨"t1", "A", ""⟩, ⟨"t2", "B", ""⟩])
        (fun pid => if pid = "t1" then .error "db down"
                    else .ok [⟨⟨pid, "a", "k", "auth", none⟩, 2⟩])
        (fun _ => .ok []) (fun _ => .ok []) 10).2 = none ∧
    SearchAllImpl (.ok [⟨"t1", "A", ""⟩, ⟨"t2", "B", ""⟩])
        (fun pid => if pid = "t1" then .error "db down"
                    else .ok [⟨⟨pid, "a", "k", "auth", none⟩, 2⟩])
        (fun _ => .ok []) (fun _ => .ok []) 10 =
      SearchAllImpl (.ok [⟨"t1", "A", ""⟩, ⟨"t2", "B", ""⟩])
        (fun pid => if pid = "t1" then .ok []
                    else if pid = "t1" then .error "db down"
                    else .ok [⟨⟨pid, "a", "k", "auth", none⟩, 2⟩])
        (fun _ => .ok []) (fun _ => .ok []) 10 := by
  have h := searchAll_partial_failure [⟨"t1", "A", ""⟩, ⟨"t2", "B", ""⟩]
    (fun pid => if pid = "t1" then .error "db down"
                else .ok [⟨⟨pid, "a", "k", "auth", none⟩, 2⟩])
    (fun _ => .ok []) (fun _ => .ok []) "t1" 10
  exact ⟨h.1, h.2.1 "db down" (by simp)⟩

/-- C4 counterexample: `memory_get` of a missing item completes (a text
result, not an error result) yet appends no usage record — against the
claim that every completed operation appends exactly one. -/
theorem memoryGet_missing_appends_no_record :
    (handleMemoryGet ⟨[], [], [], [], []⟩ "t1" "arch" "db").1 =
      ToolResult.text "not found" ∧
    ((handleMemoryGet ⟨[], [], [], [], []⟩ "t1" "arch" "db").2).usage = [] :=
  ⟨rfl, rfl⟩

/-- C4 (amended): every completed MCP tool operation appends exactly one
usage record — including zero-result searches and deletes — except a get
(`memory_get`, `session_get`) of a missing item, which completes with a
"not found" text result and appends none. -/
theorem usage_record_per_operation (sem : DBSem)
    (embed : String → Option Vec) (st : StoreState)
    (pid query topic key : String) (num : Int) (limit : Int)
    (hpid : pid ≠ "") (hq : query ≠ "") :
    (∃ u, ((handleMemorySearch sem embed st pid query limit).2).usage =
        st.usage ++ [u]) ∧
    (∃ u, ((handleMemoryDelete st pid topic key).2).usage =
        st.usage ++ [u]) ∧
    (∀ m, findMemoryRow st.memories pid topic key = some m →
      ∃ u, ((handleMemoryGet st pid topic key).2).usage = st.usage ++ [u]) ∧
    (findMemoryRow st.memories pid topic key = none →
      (handleMemoryGet st pid topic key).1 = ToolResult.text "not found" ∧
      ((handleMemoryGet st pid topic key).2).usage = st.usage) ∧
    (findSessionRow st.sessions pid num = none →
      (handleSessionGet st pid num).1 = ToolResult.text "not found" ∧
      ((handleSessionGet st pid num).2).usage = st.usage) := by
  refine ⟨?_, ?_, ?_, ?_, ?_⟩
  · unfold handleMemorySearch
    rw [if_neg]
    · exact ⟨_, rfl⟩
    · simp [hpid, hq]
  · exact ⟨_, rfl⟩
  · intro m hm
    unfold handleMemoryGet GetMemory queryRowMemory
    rw [hm]
    exact ⟨_, rfl⟩
  · intro hm
    unfold handleMemoryGet GetMemory queryRowMemory
    rw [hm]
    exact ⟨rfl, rfl⟩
  · intro hs
    unfold handleSessionGet GetSession queryRowSession
    rw [hs]
    exact ⟨rfl, rfl⟩

/-- C4 witness: the amended accounting behaviour evaluated on a one-row
store — a search with zero matches and a delete each append exactly one
record; a get of a present item appends one; gets of missing items append
none. -/
theorem usage_record_per_operation_witness :
    (∃ u, ((handleMemorySearch demoSem (fun _ => none)
        ⟨[], [demoMem], [], [], []⟩ "t1" "auth" 5).2).usage = [] ++ [u]) ∧
    (∃ u, ((handleMemoryDelete ⟨[], [demoMem], [], [], []⟩
        "t1" "arch" "db").2).usage = [] ++ [u]) ∧
    (∃ u, ((handleMemoryGet ⟨[], [demoMem], [], [], []⟩
        "t1" "arch" "db").2).usage = [] ++ [u]) ∧
    ((handleMemoryGet ⟨[], [demoMem], [], [], []⟩ "t1" "x" "y").1 =
        ToolResult.text "not found" ∧
      ((handleMemoryGet ⟨[], [demoMem], [], [], []⟩ "t1" "x" "y").2).usage =
        []) ∧
    ((handleSessionGet ⟨[], [demoMem], [], [], []⟩ "t1" 7).1 =
        ToolResult.text "not found" ∧
      ((handleSessionGet ⟨[], [demoMem], [], [], []⟩ "t1" 7).2).usage =
        []) := by
  have h1 := usage_record_per_operation demoSem (fun _ => none)
    ⟨[], [demoMem], [], [], []⟩ "t1" "auth" "arch" "db" 7 5
    (by decide) (by decide)
  have h2 := usage_record_per_operation demoSem (fun _ => none)
    ⟨[], [demoMem], [], [], []⟩ "t1" "auth" "x" "y" 7 5
    (by decide) (by decide)
  exact ⟨h1.1, h1.2.1, h1.2.2.1 demoMem (by rfl),
         h2.2.2.2.1 (by rfl), h2.2.2.2.2 (by rfl)⟩

/-- The row stored under the natural key `(project_id, file_path)`. -/
def findFileRow (rows : List FileRow) (pid path : String) : Option FileRow :=
  rows.find? (fun r => r.projectID == pid && r.filePath == path)

theorem SetMemory_existing (st : StoreState) (pid topic key value : String)
    (emb : Option Vec)
    (hany : (st.memories.any
      (fun r => r.projectID == pid && r.topic == topic && r.key == key)) = true) :
    (SetMemory st pid topic key value emb).memories =
      st.memories.map (fun r =>
        if r.projectID == pid && r.topic == topic && r.key == key then
          { r with value := value, embedding := coalesceVec emb r.embedding }
        else r) := by
  unfold SetMemory
  rw [if_pos hany]

theorem CreateSession_existing (st : StoreState) (pid : String) (num : Int)
    (title summary content : String) (emb : Option Vec)
    (hany : (st.sessions.any
      (fun r => r.projectID == pid && r.sessionNum == num)) = true) :
    (CreateSession st pid num title summary content emb).sessions =
      st.sessions.map (fun r =>
        if r.projectID == pid && r.sessionNum == num then
          { r with title := title, summary := summary, content := content,
                   embedding := coalesceVec emb r.embedding }
        else r) := by
  unfold CreateSession
  rw [if_pos hany]

theorem IndexFile_existing (st : StoreState)
    (pid path fileType symbols summary : String) (emb : Option Vec)
    (hany : (st.files.any
      (fun r => r.projectID == pid && r.filePath == path)) = true) :
    (IndexFile st pid path fileType symbols summary emb).files =
      st.files.map (fun r =>
        if r.projectID == pid && r.filePath == path then
          { r with fileType := fileType, symbols := symbols,
                   summary := summary,
                   embedding := coalesceVec emb r.embedding }
        else r) := by
  unfold IndexFile
  rw [if_pos hany]

/-- C5: for every upsert of a content item (memory, session, file entry)
whose natural key already exists, an absent supplied vector leaves the
previously stored non-absent vector unchanged while the payload is
replaced; a non-absent supplied vector replaces the stored one. -/
theorem upsert_preserves_stored_vector (st : StoreState)
    (pid topic key value title summary content path ftype syms fsummary :
      String) (num : Int) (v w : Vec) :
    (∀ m0, findMemoryRow st.memories pid topic key = some m0 →
      m0.embedding = some w →
      (∃ m', findMemoryRow (SetMemory st pid topic key value none).memories
          pid topic key = some m' ∧ m'.value = value ∧
          m'.embedding = some w) ∧
      (∃ m', findMemoryRow
          (SetMemory st pid topic key value (some v)).memories
          pid topic key = some m' ∧ m'.value = value ∧
          m'.embedding = some v)) ∧
    (∀ s0, findSessionRow st.sessions pid num = some s0 →
      s0.embedding = some w →
      (∃ s', findSessionRow
          (CreateSession st pid num title summary content none).sessions
          pid num = some s' ∧ s'.title = title ∧ s'.summary = summary ∧
          s'.embedding = some w) ∧
      (∃ s', findSessionRow
          (CreateSession st pid num title summary content (some v)).sessions
          pid num = some s' ∧ s'.title = title ∧ s'.summary = summary ∧
          s'.embedding = some v)) ∧
    (∀ f0, findFileRow st.files pid path = some f0 →
      f0.embedding = some w →
      (∃ f', findFileRow
          (IndexFile st pid path ftype syms fsummary none).files
          pid path = some f' ∧ f'.summary = fsummary ∧
          f'.embedding = some w) ∧
      (∃ f', findFileRow
          (IndexFile st pid path ftype syms fsummary (some v)).files
          pid path = some f' ∧ f'.summary = fsummary ∧
          f'.embedding = some v)) := by
  refine ⟨?_, ?_, ?_⟩
  · intro m0 h0 hw0
    have hp := List.find?_some h0
    have hany : (st.memories.any (fun r =>
        r.projectID == pid && r.topic == topic && r.key == key)) = true :=
      List.any_eq_true.mpr ⟨m0, List.mem_of_find?_eq_some h0, hp⟩
    constructor
    · have hfind : findMemoryRow
          (SetMemory st pid topic key value none).memories pid topic key =
          some { m0 with value := value,
                         embedding := coalesceVec none m0.embedding } := by
        unfold findMemoryRow
        rw [SetMemory_existing st pid topic key value none hany]
        exact find?_map_update _ _ _ m0 hp h0
      refine ⟨_, hfind, rfl, ?_⟩
      show coalesceVec none m0.embedding = some w
      exact hw0
    · have hfind : findMemoryRow
          (SetMemory st pid topic key value (some v)).memories pid topic key =
          some { m0 with value := value,
                         embedding := coalesceVec (some v) m0.embedding } := by
        unfold findMemoryRow
        rw [SetMemory_existing st pid topic key value (some v) hany]
        exact find?_map_update _ _ _ m0 hp h0
      exact ⟨_, hfind, rfl, rfl⟩
  · intro s0 h0 hw0
    have hp := List.find?_some h0
    have hany : (st.sessions.any (fun r =>
        r.projectID == pid && r.sessionNum == num)) = true :=
      List.any_eq_true.mpr ⟨s0, List.mem_of_find?_eq_some h0, hp⟩
    constructor
    · have hfind : findSessionRow
          (CreateSession st pid num title summary content none).sessions
          pid num =
          some { s0 with title := title, summary := summary,
                         content := content,
                         embedding := coalesceVec none s0.embedding } := by
        unfold findSessionRow
        rw [CreateSession_existing st pid num title summary content none hany]
        exact find?_map_update _ _ _ s0 hp h0
      refine ⟨_, hfind, rfl, rfl, ?_⟩
      show coalesceVec none s0.embedding = some w
      exact hw0
    · have hfind : findSessionRow
          (CreateSession st pid num title summary content (some v)).sessions
          pid num =
          some { s0 with title := title, summary := summary,
                         content := content,
                         embedding := coalesceVec (some v) s0.embedding } := by
        unfold findSessionRow
        rw [CreateSession_existing st pid num title summary content (some v)
          hany]
        exact find?_map_update _ _ _ s0 hp h0
      exact ⟨_, hfind, rfl, rfl, rfl⟩
  · intro f0 h0 hw0
    have hp := List.find?_some h0
    have hany : (st.files.any (fun r =>
        r.projectID == pid && r.filePath == path)) = true :=
      List.any_eq_true.mpr ⟨f0, List.mem_of_find?_eq_some h0, hp⟩
    constructor
    · have hfind : findFileRow
          (IndexFile st pid path ftype syms fsummary none).files pid path =
          some { f0 with fileType := ftype, symbols := syms,
                         summary := fsummary,
                         embedding := coalesceVec none f0.embedding } := by
        unfold findFileRow
        rw [IndexFile_existing st pid path ftype syms fsummary none hany]
        exact find?_map_update _ _ _ f0 hp h0
      refine ⟨_, hfind, rfl, ?_⟩
      show coalesceVec none f0.embedding = some w
      exact hw0
    · have hfind : findFileRow
          (IndexFile st pid path ftype syms fsummary (some v)).files pid path =
          some { f0 with fileType := ftype, symbols := syms,
                         summary := fsummary,
                         embedding := coalesceVec (some v) f0.embedding } := by
        unfold findFileRow
        rw [IndexFile_existing st pid path ftype syms fsummary (some v) hany]
        exact find?_map_update _ _ _ f0 hp h0
      exact ⟨_, hfind, rfl, rfl⟩

/-- C5 witness: a memory upsert over a store holding a row with a stored
vector, once with an absent new vector (the stored one survives) and once
with a present one (it replaces). -/
theorem upsert_preserves_stored_vector_witness :
    (∃ m', findMemoryRow
        (SetMemory ⟨[], [⟨"t1", "arch", "db", "old", some [2]⟩], [], [], []⟩
          "t1" "arch" "db" "new" none).memories "t1" "arch" "db" = some m' ∧
        m'.value = "new" ∧ m'.embedding = some [2]) ∧
    (∃ m', findMemoryRow
        (SetMemory ⟨[], [⟨"t1", "arch", "db", "old", some [2]⟩], [], [], []⟩
          "t1" "arch" "db" "new" (some [3])).memories "t1" "arch" "db" =
          some m' ∧ m'.value = "new" ∧ m'.embedding = some [3]) := by
  have h := upsert_preserves_stored_vector
    ⟨[], [⟨"t1", "arch", "db", "old", some [2]⟩], [], [], []⟩
    "t1" "arch" "db" "new" "ti" "su" "co" "p" "go" "[]" "fs" 7 [3] [2]
  exact h.1 ⟨"t1", "arch", "db", "old", some [2]⟩ rfl rfl

/-- C6: `Embed` is total and never surfaces an error: empty text yields
absent independently of the transport (no network call), and transport
failure, a non-success status, a malformed body, or a dimension mismatch
each yield absent; any non-absent result has the configured dimension. -/
theorem embed_never_fails (s : EmbedService) (text : String)
    (out out2 : HttpOutcome) (status : Nat) (body : EmbedBody) (v : Vec)
    (hst : status ≠ 200) (hv : v.length ≠ s.dim) :
    (Embed s "" out = none ∧ Embed s "" out = Embed s "" out2) ∧
    Embed s text .failure = none ∧
    Embed s text (.response status body) = none ∧
    Embed s text (.response 200 .malformed) = none ∧
    Embed s text (.response 200 (.embedding v)) = none ∧
    (Embed s text out = none ∨
      ∃ w, Embed s text out = some w ∧ w.length = s.dim) := by
  have hempty : ∀ o : HttpOutcome, Embed s "" o = none := by
    intro o
    unfold Embed
    simp
  refine ⟨⟨hempty out, (hempty out).trans (hempty out2).symm⟩, ?_, ?_, ?_, ?_, ?_⟩
  · unfold Embed
    split <;> rfl
  · unfold Embed
    split
    · rfl
    · simp [hst]
  · unfold Embed
    split <;> simp
  · unfold Embed
    split
    · rfl
    · simp [hv]
  · unfold Embed
    split
    · exact Or.inl rfl
    · cases out with
      | failure => exact Or.inl rfl
      | response st2 body2 =>
        by_cases h200 : st2 = 200
        · subst h200
          cases body2 with
          | malformed => exact Or.inl (by simp)
          | embedding w =>
            by_cases hd : w.length = s.dim
            · exact Or.inr ⟨w, by simp [hd], hd⟩
            · exact Or.inl (by simp [hd])
        · exact Or.inl (by simp [h200])

/-- C6 witness: the degradation paths evaluated at a concrete service
(`dim = 3`) — a 503 response and a wrong-length vector both yield absent. -/
theorem embed_never_fails_witness :
    (Embed ⟨"http:", 3⟩ "" HttpOutcome.failure = none ∧
     Embed ⟨"http:", 3⟩ "" HttpOutcome.failure =
       Embed ⟨"http:", 3⟩ "" (HttpOutcome.response 200 (.embedding [1, 2, 3]))) ∧
    Embed ⟨"http:", 3⟩ "hi" .failure = none ∧
    Embed ⟨"http:", 3⟩ "hi" (.response 503 .malformed) = none ∧
    Embed ⟨"http:", 3⟩ "hi" (.response 200 .malformed) = none ∧
    Embed ⟨"http:", 3⟩ "hi" (.response 200 (.embedding [1])) = none ∧
    (Embed ⟨"http:", 3⟩ "hi" HttpOutcome.failure = none ∨
      ∃ w, Embed ⟨"http:", 3⟩ "hi" HttpOutcome.failure = some w ∧
        w.length = (⟨"http:", 3⟩ : EmbedService).dim) :=
  embed_never_fails ⟨"http:", 3⟩ "hi" HttpOutcome.failure
    (HttpOutcome.response 200 (.embedding [1, 2, 3])) 503 EmbedBody.malformed
    [1] (by decide) (by decide)

/-- C7: the token estimate is a pure function of operation name and result
count: the three search operations multiply a fixed per-result weight
(500 / 2000 / 800) by the count — so `memory_search` with 3 results yields
1500 — and every other operation yields the flat constant 100 regardless
of result count. -/
theorem tokenEstimate_lookup_table (name : String) (n : Int)
    (h1 : name ≠ "memory_search") (h2 : name ≠ "session_search")
    (h3 : name ≠ "file_search") :
    tokenEstimate "memory_search" n = n * 500 ∧
    tokenEstimate "session_search" n = n * 2000 ∧
    tokenEstimate "file_search" n = n * 800 ∧
    tokenEstimate "memory_search" 3 = 1500 ∧
    tokenEstimate name n = 100 := by
  refine ⟨rfl, rfl, rfl, rfl, ?_⟩
  unfold tokenEstimate
  split
  · exact absurd rfl h1
  · exact absurd rfl h2
  · exact absurd rfl h3
  · rfl

/-- C7 witness: the lookup table at `memory_set` (a write) with 3 results
and at the three search operations. -/
theorem tokenEstimate_lookup_table_witness :
    tokenEstimate "memory_search" 3 = 3 * 500 ∧
    tokenEstimate "session_search" 3 = 3 * 2000 ∧
    tokenEstimate "file_search" 3 = 3 * 800 ∧
    tokenEstimate "memory_search" 3 = 1500 ∧
    tokenEstimate "memory_set" 3 = 100 :=
  tokenEstimate_lookup_table "memory_set" 3 (by decide) (by decide)
    (by decide)

/-- C8: publish delivery is per-subscriber try-send: a subscriber whose
bounded inbox is full is skipped with its inbox left unchanged (no error,
no retry), one with room receives the event, and `Publish` is a total
function of the bus state — the producer is never blocked on a subscriber. -/
theorem publish_nonblocking_skips_full (eb : EventBus) (event : String)
    (inbox : List String) (hfull : chanCap ≤ inbox.length) :
    (Publish eb event).clients = eb.clients.map (fun ib => trySend ib event) ∧
    trySend inbox event = inbox ∧
    (∀ ib : List String, ib.length < chanCap →
      trySend ib event = ib ++ [event]) ∧
    (Publish eb event).clients.length = eb.clients.length := by
  refine ⟨rfl, ?_, ?_, by simp [Publish]⟩
  · unfold trySend
    rw [if_neg (not_lt.mpr hfull)]
  · intro ib hib
    unfold trySend
    rw [if_pos hib]

/-- C8 witness: a bus with one full inbox (16 pending events) and one
empty inbox — the full subscriber misses the event, the empty one gets it. -/
theorem publish_nonblocking_skips_full_witness :
    (Publish ⟨[List.replicate 16 "x", []]⟩ "dashboard-stats").clients =
      [List.replicate 16 "x", []].map
        (fun ib => trySend ib "dashboard-stats") ∧
    trySend (List.replicate 16 "x") "dashboard-stats" =
      List.replicate 16 "x" ∧
    (∀ ib : List String, ib.length < chanCap →
      trySend ib "dashboard-stats" = ib ++ ["dashboard-stats"]) ∧
    (Publish ⟨[List.replicate 16 "x", []]⟩ "dashboard-stats").clients.length =
      ([List.replicate 16 "x", []] : List (List String)).length :=
  publish_nonblocking_skips_full ⟨[List.replicate 16 "x", []]⟩
    "dashboard-stats" (List.replicate 16 "x") (by simp [chanCap])

/-- C9 (the code diverges from this claim): unsubscribing does remove the
subscriber from the registry, but the drain loop `for range ch` runs over
a channel that no code path ever closes; once the pending messages are
consumed the loop blocks on the open channel — to which, after removal,
nothing can send — so the unregister call never returns, for every bus
state, subscriber and inbox content. -/
theorem unsubscribe_never_returns (eb : EventBus) (i : Nat)
    (pending : List String) :
    drainLoop pending false = DrainOutcome.blocked ∧
    (unsubscribe eb i).2 = DrainOutcome.blocked ∧
    (unsubscribe eb i).1.clients = eb.clients.eraseIdx i :=
  ⟨drainLoop_open pending, drainLoop_open _, rfl⟩

end DevMemory
